import Mathlib

/-!
# Verification of the hpgl plotter driver (src/hpgl.js)

Shallow embedding, in Lean 4, of the parts of the `hpgl` Node.js library
(file `src/hpgl.js`) that the verified claims are about:

* unit conversion (`_toPlotterUnits`, lines 1363-1382),
* HPGL decimal encoding (`_toHpglDecimal`, lines 1828-1840),
* RS-232-C error decoding (`getRs232Error`, lines 903-946),
* the instruction queue (`queue`, lines 2416-2468, and
  `_stopAndEmptyQueue`, lines 1187-1190),
* point-list chunking (`drawLines`, lines 1978-2043),
* coordinate transformation (`_toAbsoluteHpglCoordinates`, lines 1477-1495)
  and the device profile table (`Models`, lines 128-451),
* the plotting-environment configuration performed during connection
  (`_configurePlottingEnvironment`, lines 965-1058),
* the timer/event driven queue drain cycle (`_processQueue`,
  lines 2477-2549, together with `send`, lines 1591-1663, and the
  `once("data")` listener mechanics of `_onData`, lines 1529-1549).

JavaScript numbers are modelled as `ℚ` (the formulas of the source involve
only exact decimal constants), JavaScript strings as Lean `String`s, and
thrown exceptions as explicit error results.
-/

namespace Hpgl

/-! ## Unit conversion: `_toPlotterUnits` (src/hpgl.js lines 1363-1382)

The JavaScript reads `this.characteristics.resolution.x` when the whole
chain `characteristics && resolution && resolution.x` is truthy and falls
back to `res = 40` otherwise.  A missing (or zero, hence falsy) resolution
is modelled by `none` / `some 0`. -/

/-- Embedding of `Plotter.prototype._toPlotterUnits`.  `resolutionX` is
`this.characteristics.resolution.x` when available.  `Math.round` is JS
round-half-up, i.e. Mathlib's `round` (`⌊x + 1/2⌋`). -/
def toPlotterUnits (resolutionX : Option ℚ) (value : ℚ) (metric : Bool) : ℤ :=
  let res : ℚ :=
    match resolutionX with
    | some r => if r = 0 then 40 else r
    | none => 40
  if metric then round (value * 10 * res) else round (value * (127/5) * res)

/-- Modelled from the spec: `toDeviceUnits(value, unitSystem)` as the spec
describes it — `value * (unitSystem==metric ? 10 : 25.4) * resolutionX`,
rounded to nearest integer, and *failing* (no value produced) when the
resolution is not yet known. -/
def toDeviceUnits_specModel (resolutionX : Option ℚ) (value : ℚ) (metric : Bool) :
    Option ℤ :=
  match resolutionX with
  | none => none
  | some r => some (round (value * (if metric then 10 else 127/5) * r))

/-! ## HPGL decimal encoding: `_toHpglDecimal` (src/hpgl.js lines 1828-1840)

`value` is clamped to `[-128, 127.9999]` and then formatted with
`value.toFixed(4)`.  ECMAScript `toFixed(4)`, for a negative number,
formats the absolute value and prepends `"-"`; the absolute value is
rounded to the integer `n` minimizing `|n / 10^4 - x|`, the larger `n`
winning ties (round half up). -/

/-- The clamping step of `_toHpglDecimal` (`127.9999 = 1279999/10000`). -/
def hpglClampDecimal (v : ℚ) : ℚ :=
  if v < -128 then -128 else if v > 1279999/10000 then 1279999/10000 else v

/-- The scaled magnitude produced by `toFixed(4)`: the numerator of the
formatted decimal of `|x|`, i.e. `|x| * 10^4` rounded half up. -/
def toFixed4Mag (x : ℚ) : ℤ := ⌊|x| * 10000 + 1/2⌋

/-- Numeric value denoted by the string `x.toFixed(4)`. -/
def toFixed4Value (x : ℚ) : ℚ :=
  if x < 0 then -(toFixed4Mag x : ℚ) / 10000 else (toFixed4Mag x : ℚ) / 10000

/-- Renders one decimal digit (`d < 10`). -/
def digit (d : ℕ) : Char := Nat.digitChar d

/-- The exactly-four fractional digits of `x.toFixed(4)` (the four least
significant decimal digits of the scaled magnitude). -/
def toFixed4Frac (x : ℚ) : String :=
  let m := (toFixed4Mag x).toNat
  String.mk [digit (m / 1000 % 10), digit (m / 100 % 10), digit (m / 10 % 10), digit (m % 10)]

/-- The string `x.toFixed(4)`: sign, integer digits, `'.'`, then exactly
four fractional digits. -/
def toFixed4Str (x : ℚ) : String :=
  let m := (toFixed4Mag x).toNat
  (if x < 0 then "-" else "") ++ toString (m / 10000) ++ "." ++ toFixed4Frac x

/-- Embedding of `Plotter.prototype._toHpglDecimal` (string result). -/
def toHpglDecimal (v : ℚ) : String := toFixed4Str (hpglClampDecimal v)

/-- Numeric value denoted by the string `_toHpglDecimal(v)`. -/
def toHpglDecimalValue (v : ℚ) : ℚ := toFixed4Value (hpglClampDecimal v)

/-! ### Theorems for claims C7 and C8 -/

/-- Claim C7, counterexample: with the resolution not yet known
(`characteristics` still `undefined`), `_toPlotterUnits(1)` does *not* fail
or return a sentinel — it produces the ordinary converted value `400`
(falling back to a default resolution of 40 units/mm), while the spec's
`toDeviceUnits` produces no value at all in that situation. -/
theorem toPlotterUnits_unknown_resolution_produces_value :
    toPlotterUnits none 1 true = 400 ∧ toPlotterUnits none 1 true ≠ 0 ∧
      toDeviceUnits_specModel none 1 true = none := by
  have h : toPlotterUnits none 1 true = 400 := by
    show round ((1:ℚ) * 10 * 40) = 400
    norm_num [round_eq]
  exact ⟨h, by rw [h]; norm_num, rfl⟩

/-- Claim C7 (amended): `_toPlotterUnits` returns
`Math.round(value * (metric ? 10 : 25.4) * resolutionX)` whenever the
device's x-resolution is known (truthy), and when the resolution is *not*
known it falls back to the default resolution 40 and still returns
`Math.round(value * factor * 40)` instead of failing. -/
theorem toPlotterUnits_formula (value : ℚ) (metric : Bool) :
    (∀ r : ℚ, r ≠ 0 →
      toPlotterUnits (some r) value metric =
        round (value * (if metric then 10 else 127/5) * r)) ∧
    toPlotterUnits none value metric =
      round (value * (if metric then 10 else 127/5) * 40) := by
  constructor
  · intro r hr
    cases metric <;> simp [toPlotterUnits, hr]
  · cases metric <;> simp [toPlotterUnits]

/-- Witness for `toPlotterUnits_formula` at resolution 40, value 1, metric. -/
theorem toPlotterUnits_formula_witness :
    (40:ℚ) ≠ 0 ∧ toPlotterUnits (some 40) 1 true =
      round ((1:ℚ) * (if true then 10 else 127/5) * 40) :=
  ⟨by norm_num, (toPlotterUnits_formula 1 true).1 40 (by norm_num)⟩

private lemma hpglClampDecimal_bounds (v : ℚ) :
    -128 ≤ hpglClampDecimal v ∧ hpglClampDecimal v ≤ 1279999/10000 := by
  unfold hpglClampDecimal
  split_ifs with h1 h2 <;> constructor <;> linarith

private lemma toFixed4Mag_nonneg (x : ℚ) : 0 ≤ toFixed4Mag x := by
  have : (0:ℚ) ≤ |x| * 10000 + 1/2 := by positivity
  exact Int.floor_nonneg.mpr this

private lemma digit_isDigit {d : ℕ} (hd : d < 10) : (digit d).isDigit = true := by
  interval_cases d <;> decide

/-- Claim C8: for every decimal input `v`, the numeric value denoted by the
string `_toHpglDecimal(v)` lies in `[-128, 127.9999]`; the string consists
of a sign, integer digits, a decimal point, and a fractional part of
exactly 4 decimal digits, and the value is an integer multiple of
`1/10^4`. -/
theorem toHpglDecimal_range_and_digits (v : ℚ) :
    (-128 ≤ toHpglDecimalValue v ∧ toHpglDecimalValue v ≤ 1279999/10000) ∧
    (∃ n : ℤ, toHpglDecimalValue v = (n : ℚ) / 10000) ∧
    (toFixed4Frac (hpglClampDecimal v)).length = 4 ∧
    (toFixed4Frac (hpglClampDecimal v)).toList.all Char.isDigit = true ∧
    toHpglDecimal v =
      (if hpglClampDecimal v < 0 then "-" else "") ++
        toString ((toFixed4Mag (hpglClampDecimal v)).toNat / 10000) ++ "." ++
        toFixed4Frac (hpglClampDecimal v) := by
  obtain ⟨hlo, hhi⟩ := hpglClampDecimal_bounds v
  set x := hpglClampDecimal v with hx
  have hmnn := toFixed4Mag_nonneg x
  refine ⟨?_, ?_, ?_, ?_, rfl⟩
  · unfold toHpglDecimalValue toFixed4Value
    rw [← hx]
    split_ifs with hneg
    · have habs : |x| = -x := abs_of_neg hneg
      have hm : toFixed4Mag x ≤ 1280000 := by
        unfold toFixed4Mag
        rw [habs]
        have : -x * 10000 + 1/2 ≤ 1280000 + (1/2 : ℚ) := by linarith
        calc ⌊-x * 10000 + 1/2⌋ ≤ ⌊(1280000 : ℚ) + 1/2⌋ := Int.floor_mono this
          _ = 1280000 := by norm_num [Int.floor_eq_iff]
      constructor
      · have hmQ : (toFixed4Mag x : ℚ) ≤ 1280000 := by exact_mod_cast hm
        have h1 : (toFixed4Mag x : ℚ) / 10000 ≤ 128 := by
          rw [div_le_iff₀ (by norm_num : (0:ℚ) < 10000)]; linarith
        have h2 : -(toFixed4Mag x : ℚ) / 10000 = -((toFixed4Mag x : ℚ) / 10000) := by
          ring
        rw [h2]; linarith
      · have h0 : (0:ℚ) ≤ (toFixed4Mag x : ℚ) := by exact_mod_cast hmnn
        have hle : -(toFixed4Mag x : ℚ) / 10000 ≤ 0 := by
          apply div_nonpos_of_nonpos_of_nonneg <;> linarith
        linarith
    · push_neg at hneg
      have habs : |x| = x := abs_of_nonneg hneg
      have hm : toFixed4Mag x ≤ 1279999 := by
        unfold toFixed4Mag
        rw [habs]
        have : x * 10000 + 1/2 ≤ 1279999 + (1/2 : ℚ) := by
          have : x * 10000 ≤ 1279999 := by
            rw [show (1279999:ℚ) = 1279999/10000 * 10000 by norm_num]
            exact mul_le_mul_of_nonneg_right hhi (by norm_num)
          linarith
        calc ⌊x * 10000 + 1/2⌋ ≤ ⌊(1279999 : ℚ) + 1/2⌋ := Int.floor_mono this
          _ = 1279999 := by norm_num [Int.floor_eq_iff]
      constructor
      · have : (0:ℚ) ≤ (toFixed4Mag x : ℚ) := by exact_mod_cast hmnn
        have : (0:ℚ) ≤ (toFixed4Mag x : ℚ) / 10000 := by positivity
        linarith
      · have : (toFixed4Mag x : ℚ) ≤ 1279999 := by exact_mod_cast hm
        rw [div_le_div_iff₀ (by norm_num) (by norm_num : (0:ℚ) < 10000)]
        linarith
  · unfold toHpglDecimalValue toFixed4Value
    rw [← hx]
    split_ifs
    · exact ⟨-toFixed4Mag x, by push_cast; ring⟩
    · exact ⟨toFixed4Mag x, rfl⟩
  · rfl
  · have h : ∀ d : ℕ, (digit (d % 10)).isDigit = true := fun d =>
      digit_isDigit (Nat.mod_lt _ (by norm_num))
    simp [toFixed4Frac, String.toList, h]

/-! ## RS-232-C error decoding: `getRs232Error` (src/hpgl.js lines 903-946)

The device reply (the CR-terminated payload delivered to the `ESC.E`
callback) is run through JavaScript `parseInt`; `NaN` is modelled as
`none`.  `parseInt` skips leading whitespace, accepts one optional sign,
then reads either `0x`/`0X`-prefixed hexadecimal digits or decimal digits,
returning `NaN` when no digit follows. -/

/-- Hexadecimal digit test used by JS `parseInt` with an `0x` prefix. -/
def isHexDigitJs (c : Char) : Bool :=
  c.isDigit || ('a' ≤ c && c ≤ 'f') || ('A' ≤ c && c ≤ 'F')

/-- Numeric value of a hex digit. -/
def hexDigitVal (c : Char) : ℕ :=
  if c.isDigit then c.toNat - 48 else if 'a' ≤ c then c.toNat - 87 else c.toNat - 55

/-- Value of a non-empty digit run in the given base. -/
def digitsVal (base : ℕ) (val : Char → ℕ) (ds : List Char) : ℕ :=
  ds.foldl (fun a c => base * a + val c) 0

/-- Embedding of JavaScript `parseInt(s)` (radix inferred); `none` is `NaN`. -/
def parseIntJs (s : String) : Option ℤ :=
  let l := s.toList.dropWhile Char.isWhitespace
  let (sign, l) : ℤ × List Char :=
    match l with
    | '-' :: rest => (-1, rest)
    | '+' :: rest => (1, rest)
    | _ => (1, l)
  match l with
  | '0' :: 'x' :: rest =>
    let ds := rest.takeWhile isHexDigitJs
    if ds.isEmpty then none else some (sign * digitsVal 16 hexDigitVal ds)
  | '0' :: 'X' :: rest =>
    let ds := rest.takeWhile isHexDigitJs
    if ds.isEmpty then none else some (sign * digitsVal 16 hexDigitVal ds)
  | _ =>
    let ds := l.takeWhile Char.isDigit
    if ds.isEmpty then none else some (sign * digitsVal 10 (fun c => c.toNat - 48) ds)

/-- Embedding of the response-decoding logic of
`Plotter.prototype.getRs232Error`: the `(code, message)` pair handed to the
caller's callback.  An empty (bare-CR) reply forces code 0; `NaN`
comparisons are all false, landing in the final `else`. -/
def getRs232ErrorDecode (data : String) : ℤ × String :=
  let code : Option ℤ := if data.length = 0 then some 0 else parseIntJs data
  if code = some 0 then (0, "No error.")
  else if code = some 10 then
    (10, "New output generated before previous output finished being transmitted.")
  else if code = some 11 then
    (11, "Invalid character received after first two characters (ESC.).")
  else if code = some 12 then
    (12, "Invalid character received while parsing instruction.")
  else if code = some 13 then (13, "Parameter out-of-range.")
  else if code = some 14 then (14, "Too many parameters received.")
  else if code = some 15 then (15, "Framing, parity or overrun error.")
  else if code = some 16 then (16, "Input buffer has overflowed.")
  else (99, "Unknown error")

/-- Claim C10: a zero-length device response decodes to code 0 with message
"No error."; any non-empty response whose parsed integer code is not one of
0, 10, 11, 12, 13, 14, 15 or 16 (including unparsable, `NaN`, replies)
decodes to code 99 with message "Unknown error"; in all cases the callback
receives both a code and a message. -/
theorem getRs232Error_empty_and_unknown (data : String)
    (hne : data.length ≠ 0)
    (hnc : parseIntJs data ∉
      [some 0, some 10, some 11, some 12, some 13, some 14, some 15,
        some (16:ℤ)]) :
    getRs232ErrorDecode "" = (0, "No error.") ∧
      getRs232ErrorDecode data = (99, "Unknown error") := by
  refine ⟨rfl, ?_⟩
  simp only [List.mem_cons, List.not_mem_nil, or_false] at hnc
  push_neg at hnc
  obtain ⟨h0, h10, h11, h12, h13, h14, h15, h16⟩ := hnc
  simp [getRs232ErrorDecode, hne, h0, h10, h11, h12, h13, h14, h15, h16]

/-- Witness for `getRs232Error_empty_and_unknown` at the reply `"77"`. -/
theorem getRs232Error_empty_and_unknown_witness :
    ("77".length ≠ 0 ∧ parseIntJs "77" ∉
      [some 0, some 10, some 11, some 12, some 13, some 14, some 15,
        some (16:ℤ)]) ∧
    (getRs232ErrorDecode "" = (0, "No error.") ∧
      getRs232ErrorDecode "77" = (99, "Unknown error")) :=
  ⟨⟨by decide, by decide⟩,
    getRs232Error_empty_and_unknown "77" (by decide) (by decide)⟩

/-! ## The instruction queue: `queue` (src/hpgl.js lines 2416-2468)

`queue(instruction, callback, options)` splits the instruction text on the
terminator characters `;`, `\n` and ETX (0x03), keeps the pieces of length
`>= 2`, and pushes one command object per remaining piece, attaching the
caller's `callback` / `waitForResponse` only to the piece at the last
index.  A piece whose length + 1 (terminator) exceeds a known (truthy)
`characteristics.buffer` makes `queue` call `_stopAndEmptyQueue()` (which
empties `this._queue`) and throw a `RangeError`.  Callbacks are opaque
values of a type parameter `α`. -/

/-- One entry of `this._queue` (a JS object `{instruction, callback,
waitForResponse}`; absent fields are `undefined`, i.e. `none` / `false`). -/
structure Command (α : Type) where
  instruction : String
  callback : Option α := none
  waitForResponse : Bool := false
  deriving DecidableEq, Repr

/-- The terminator characters of the split regex `[;\n\x03]`. -/
def isTerminatorChar (c : Char) : Bool :=
  c == ';' || c == '\n' || c == Char.ofNat 3

/-- JS `string.split(regex)` for a single-character class: every occurrence
of a matching character ends the current piece (so `";"` yields two empty
pieces and `""` yields one). -/
def jsSplit (p : Char → Bool) : List Char → List String
  | [] => [""]
  | c :: rest =>
    if p c then "" :: jsSplit p rest
    else
      match jsSplit p rest with
      | [] => [String.mk [c]]
      | s :: ss => String.mk (c :: s.toList) :: ss

/-- The pieces produced by `instruction.split(regex)` before filtering. -/
def splitPieces (instruction : String) : List String :=
  jsSplit isTerminatorChar instruction.toList

/-- The filter `.filter(function(n) { return n.length >= 2; })`. -/
def queueFilter (pieces : List String) : List String :=
  pieces.filter (fun n => n.length ≥ 2)

/-- JS `commands[i].startsWith("O")`. -/
def startsWithO (s : String) : Bool :=
  match s.toList with
  | c :: _ => c == 'O'
  | [] => false

/-- The command objects `queue` pushes for a list of already-filtered
pieces: the caller's callback / waitForResponse land only on the command
built at the last index. -/
def attachLast (callback : Option α) (wfr : Bool) : List String → List (Command α)
  | [] => []
  | [c] => [⟨c, callback, wfr⟩]
  | c :: c' :: rest => ⟨c, none, false⟩ :: attachLast callback wfr (c' :: rest)

/-- The queue-relevant state of a `Plotter`: the pending command array and
`characteristics.buffer` (0 when the characteristics are still undefined or
the buffer is falsy, so that the length check is skipped). -/
structure QueueState (α : Type) where
  queue : List (Command α)
  buffer : ℕ
  deriving Repr

/-- The body of the `for` loop of `queue` over the filtered pieces:
`.error n` models the thrown `RangeError` (where `n` is the offending
encoded length), produced as soon as a piece of length + 1 above a known
buffer size is met; `ignoreOutput` is `options.ignoreOutputInstructions`. -/
def queueLoop (buffer : ℕ) (cb : Option α) (wfr : Bool) (ignoreOutput : Bool) :
    List String → Except ℕ (List (Command α))
  | [] => .ok []
  | c :: rest =>
    if ignoreOutput && startsWithO c then queueLoop buffer cb wfr ignoreOutput rest
    else if buffer ≠ 0 ∧ c.length + 1 > buffer then .error (c.length + 1)
    else
      match queueLoop buffer cb wfr ignoreOutput rest with
      | .error n => .error n
      | .ok cmds =>
        .ok ({ instruction := c,
               callback := if rest.isEmpty then cb else none,
               waitForResponse := if rest.isEmpty then wfr else false } :: cmds)

/-- Embedding of `Plotter.prototype.queue`: on success the new commands are
pushed at the tail; on a `RangeError` (`some n`) the whole queue has been
emptied by `_stopAndEmptyQueue` before the throw. -/
def queueOp (st : QueueState α) (instruction : String) (callback : Option α)
    (wfr : Bool) (ignoreOutput : Bool) : QueueState α × Option ℕ :=
  match queueLoop st.buffer callback wfr ignoreOutput
      (queueFilter (splitPieces instruction)) with
  | .ok cmds => ({ st with queue := st.queue ++ cmds }, none)
  | .error n => ({ st with queue := [] }, some n)

private lemma queueLoop_ok {α : Type} (buffer : ℕ) (cb : Option α) (wfr : Bool)
    (l : List String) (hfit : ∀ c ∈ l, ¬(buffer ≠ 0 ∧ c.length + 1 > buffer)) :
    queueLoop buffer cb wfr false l = .ok (attachLast cb wfr l) := by
  induction l with
  | nil => rfl
  | cons c rest ih =>
    have hc := hfit c (List.mem_cons_self c rest)
    have hrest : ∀ x ∈ rest, ¬(buffer ≠ 0 ∧ x.length + 1 > buffer) := fun x hx =>
      hfit x (List.mem_cons_of_mem c hx)
    simp only [queueLoop, Bool.false_and, Bool.false_eq_true, if_false, hc,
      ih hrest]
    cases rest with
    | nil => simp [attachLast]
    | cons c' rest' => simp [attachLast]

private lemma queueLoop_oversized {α : Type} (buffer : ℕ) (cb : Option α)
    (wfr : Bool) (l : List String) (hb : buffer ≠ 0)
    (hover : ∃ c ∈ l, buffer < c.length + 1) :
    ∃ n, queueLoop buffer cb wfr false l = .error n := by
  induction l with
  | nil => simp at hover
  | cons c rest ih =>
    by_cases hc : buffer < c.length + 1
    · exact ⟨c.length + 1, by simp [queueLoop, hb, hc]⟩
    · obtain ⟨x, hx, hxlen⟩ := hover
      rcases List.mem_cons.mp hx with rfl | hx'
      · exact absurd hxlen hc
      · obtain ⟨n, hn⟩ := ih ⟨x, hx', hxlen⟩
        refine ⟨n, ?_⟩
        simp [queueLoop, hc, hn]

/-- Claim C4: enqueueing an instruction whose encoded length (length plus 1
terminator byte) exceeds a known buffer capacity empties the whole queue
and raises a `RangeError`; a subsequent `queue()` call whose pieces all fit
succeeds normally on the emptied state (the queue is not poisoned). -/
theorem queue_oversized_clears_then_recovers {α : Type}
    (st : QueueState α) (instr instr2 : String) (cb cb2 : Option α)
    (wfr wfr2 : Bool) (hb : st.buffer ≠ 0)
    (hover : ∃ c ∈ queueFilter (splitPieces instr), st.buffer < c.length + 1)
    (hfit : ∀ c ∈ queueFilter (splitPieces instr2), c.length + 1 ≤ st.buffer) :
    (∃ n, queueOp st instr cb wfr false = ({ st with queue := [] }, some n)) ∧
    queueOp { st with queue := [] } instr2 cb2 wfr2 false =
      ({ st with queue := attachLast cb2 wfr2 (queueFilter (splitPieces instr2)) },
        none) := by
  constructor
  · obtain ⟨n, hn⟩ := queueLoop_oversized st.buffer cb wfr _ hb hover
    exact ⟨n, by simp [queueOp, hn]⟩
  · have h := queueLoop_ok st.buffer cb2 wfr2 (queueFilter (splitPieces instr2))
      (fun c hc => by
        have := hfit c hc
        omega)
    simp [queueOp, h]

/-- Witness for `queue_oversized_clears_then_recovers`: capacity 60, one
80-character instruction (encoded length 81), then the valid `"PA1,1"`. -/
theorem queue_oversized_clears_then_recovers_witness :
    (({ queue := [], buffer := 60 } : QueueState Unit).buffer ≠ 0 ∧
      (∃ c ∈ queueFilter (splitPieces
        "AAAAAAAAAAAAAAAAAAAAAAAAAAAAAAAAAAAAAAAAAAAAAAAAAAAAAAAAAAAAAAAAAAAAAAAAAAAAAAAA"),
        ({ queue := [], buffer := 60 } : QueueState Unit).buffer < c.length + 1) ∧
      (∀ c ∈ queueFilter (splitPieces "PA1,1"), c.length + 1 ≤
        ({ queue := [], buffer := 60 } : QueueState Unit).buffer)) ∧
    ((∃ n, queueOp ({ queue := [], buffer := 60 } : QueueState Unit)
        "AAAAAAAAAAAAAAAAAAAAAAAAAAAAAAAAAAAAAAAAAAAAAAAAAAAAAAAAAAAAAAAAAAAAAAAAAAAAAAAA"
        none false false = ({ queue := [], buffer := 60 }, some n)) ∧
      queueOp ({ queue := [], buffer := 60 } : QueueState Unit) "PA1,1" none false
          false =
        ({ queue := attachLast none false (queueFilter (splitPieces "PA1,1")),
           buffer := 60 }, none)) :=
  ⟨⟨by decide, by decide, by decide⟩,
    queue_oversized_clears_then_recovers _ _ _ none none false false (by decide)
      (by decide) (by decide)⟩

private lemma attachLast_map_instruction {α : Type} (cb : Option α) (wfr : Bool)
    (l : List String) :
    (attachLast cb wfr l).map Command.instruction = l := by
  induction l with
  | nil => rfl
  | cons c rest ih =>
    cases rest with
    | nil => rfl
    | cons c' rest' => simpa [attachLast] using ih

private lemma attachLast_dropLast {α : Type} (cb : Option α) (wfr : Bool)
    (l : List String) :
    ∀ cmd ∈ (attachLast cb wfr l).dropLast,
      cmd.callback = none ∧ cmd.waitForResponse = false := by
  induction l with
  | nil => simp [attachLast]
  | cons c rest ih =>
    cases rest with
    | nil => simp [attachLast]
    | cons c' rest' =>
      intro cmd hcmd
      rw [attachLast] at hcmd
      rw [List.dropLast_cons_of_ne_nil (by
        cases rest' with
        | nil => simp [attachLast]
        | cons a b => simp [attachLast])] at hcmd
      rcases List.mem_cons.mp hcmd with rfl | h
      · exact ⟨rfl, rfl⟩
      · exact ih cmd h

private lemma attachLast_getLast {α : Type} (cb : Option α) (wfr : Bool)
    (l : List String) :
    ∀ cmd, (attachLast cb wfr l).getLast? = some cmd →
      cmd.callback = cb ∧ cmd.waitForResponse = wfr := by
  induction l with
  | nil => simp [attachLast]
  | cons c rest ih =>
    cases rest with
    | nil =>
      intro cmd hcmd
      simp only [attachLast, List.getLast?_singleton, Option.some_inj] at hcmd
      subst hcmd
      exact ⟨rfl, rfl⟩
    | cons c' rest' =>
      intro cmd hcmd
      rw [attachLast] at hcmd
      obtain ⟨x, xs, hx⟩ : ∃ x xs, attachLast cb wfr (c' :: rest') = x :: xs := by
        cases rest' with
        | nil => exact ⟨_, _, rfl⟩
        | cons a b => exact ⟨_, _, rfl⟩
      rw [hx, List.getLast?_cons_cons, ← hx] at hcmd
      exact ih cmd hcmd

/-- Claim C5, counterexample: `queue("A;BC")` splits into the two non-empty
pieces `"A"` and `"BC"`, but only `"BC"` becomes a queued command — the
filter keeps pieces of length `>= 2`, not merely non-empty ones, so the
non-empty piece `"A"` is silently dropped. -/
theorem queue_split_drops_short_nonempty_piece :
    (splitPieces "A;BC").filter (fun s => s ≠ "") = ["A", "BC"] ∧
    ((queueOp ({ queue := [], buffer := 0 } : QueueState Unit) "A;BC" (some ())
        true false).1.queue.map Command.instruction = ["BC"]) := by
  constructor <;> rfl

/-- Claim C5 (amended): `queue(instruction, callback, {waitForResponse})`
splits the instruction on semicolon, newline and ETX; each piece of length
at least 2 (not merely each non-empty piece: length-1 pieces are dropped)
becomes exactly one queued command, in order; only the command built from
the last piece carries the caller's callback and waitForResponse flag, all
earlier ones being fire-and-forget. -/
theorem queue_splits_and_attaches_callback_to_last {α : Type}
    (st : QueueState α) (instr : String) (cb : Option α) (wfr : Bool)
    (hfit : ∀ c ∈ queueFilter (splitPieces instr),
      ¬(st.buffer ≠ 0 ∧ c.length + 1 > st.buffer)) :
    queueOp st instr cb wfr false =
      ({ st with
         queue := st.queue ++ attachLast cb wfr (queueFilter (splitPieces instr)) },
        none) ∧
    (attachLast cb wfr (queueFilter (splitPieces instr))).map Command.instruction =
      queueFilter (splitPieces instr) ∧
    (∀ cmd ∈ (attachLast cb wfr (queueFilter (splitPieces instr))).dropLast,
      cmd.callback = none ∧ cmd.waitForResponse = false) ∧
    (∀ cmd, (attachLast cb wfr (queueFilter (splitPieces instr))).getLast? =
        some cmd → cmd.callback = cb ∧ cmd.waitForResponse = wfr) := by
  refine ⟨?_, attachLast_map_instruction cb wfr _, attachLast_dropLast cb wfr _,
    attachLast_getLast cb wfr _⟩
  simp [queueOp, queueLoop_ok st.buffer cb wfr _ hfit]

/-- Witness for `queue_splits_and_attaches_callback_to_last`:
`queue("PU0,0;PD;X", cb, {waitForResponse: true})` on an empty queue with a
60-byte buffer queues `PU0,0` (fire-and-forget) then `PD` (with the
callback); the length-1 piece `"X"` is dropped. -/
theorem queue_splits_and_attaches_callback_to_last_witness :
    (∀ c ∈ queueFilter (splitPieces "PU0,0;PD;X"),
      ¬(({ queue := [], buffer := 60 } : QueueState ℕ).buffer ≠ 0 ∧
        c.length + 1 > ({ queue := [], buffer := 60 } : QueueState ℕ).buffer)) ∧
    (queueOp ({ queue := [], buffer := 60 } : QueueState ℕ) "PU0,0;PD;X"
        (some 7) true false =
      ({ queue := [] ++ attachLast (some 7) true
           (queueFilter (splitPieces "PU0,0;PD;X")), buffer := 60 }, none) ∧
      (attachLast (some 7) true
          (queueFilter (splitPieces "PU0,0;PD;X"))).map Command.instruction =
        queueFilter (splitPieces "PU0,0;PD;X") ∧
      (∀ cmd ∈ (attachLast (some 7) true
          (queueFilter (splitPieces "PU0,0;PD;X"))).dropLast,
        cmd.callback = none ∧ cmd.waitForResponse = false) ∧
      (∀ cmd, (attachLast (some 7) true
            (queueFilter (splitPieces "PU0,0;PD;X"))).getLast? = some cmd →
          cmd.callback = some 7 ∧ cmd.waitForResponse = true)) :=
  ⟨by decide,
    queue_splits_and_attaches_callback_to_last _ _ (some 7) true (by decide)⟩

/-! ## Point-list chunking: `drawLines` (src/hpgl.js lines 1978-2043)

`drawLines` converts each (x, y) pair to absolute plotter coordinates and
pushes the numbers into `chunks[current]`; before each push it simulates
the final instruction `"PA" + chunks[current].concat([p.x, p.y]).join(",")
+ ";"` and opens a new chunk when that simulated instruction would exceed
`characteristics.buffer`.  The chunking operates on the already-converted
coordinate list, which is how it is modelled here (`List (ℤ × ℤ)`). -/

/-- JS `array.join(",")` over the decimal renderings of the numbers. -/
def joinComma : List ℤ → String
  | [] => ""
  | [a] => toString a
  | a :: b :: rest => toString a ++ "," ++ joinComma (b :: rest)

/-- The simulated plot-absolute instruction for a chunk, including the
terminating semicolon (`"PA" + chunk.join(",") + ";"`). -/
def paInstr (chunk : List ℤ) : String := "PA" ++ joinComma chunk ++ ";"

/-- One iteration of the chunking loop of `drawLines`: the accumulator is
(closed chunks, current chunk). -/
def chunkStep (buffer : ℕ) (acc : List (List ℤ) × List ℤ) (p : ℤ × ℤ) :
    List (List ℤ) × List ℤ :=
  if (paInstr (acc.2 ++ [p.1, p.2])).length > buffer then
    (acc.1 ++ [acc.2], [p.1, p.2])
  else
    (acc.1, acc.2 ++ [p.1, p.2])

/-- The chunks array built by `drawLines` over the converted points. -/
def chunkPoints (buffer : ℕ) (pts : List (ℤ × ℤ)) : List (List ℤ) :=
  let acc := pts.foldl (chunkStep buffer) ([], [])
  acc.1 ++ [acc.2]

/-- Claim C3, counterexample: with buffer capacity 12 and the two converted
points (1234, 5678) and (12345, 67890), the first chunk (`PA1234,5678;`,
12 bytes) fits, but the second point opens a new chunk whose own simulated
instruction `PA12345,67890;` is 14 bytes long — the greedy splitter never
re-checks that a freshly opened chunk fits by itself, so an emitted
plot-absolute instruction can exceed the buffer capacity (the first chunk
is non-empty, so the chunks are really emitted). -/
theorem drawLines_chunk_can_exceed_buffer :
    chunkPoints 12 [(1234, 5678), (12345, 67890)] =
      [[1234, 5678], [12345, 67890]] ∧
    (paInstr [1234, 5678]).length = 12 ∧
    (paInstr [12345, 67890]).length = 14 ∧ 12 < 14 := by
  refine ⟨by decide, by decide, by decide, by decide⟩

private lemma foldl_chunk_join (buffer : ℕ) :
    ∀ (pts : List (ℤ × ℤ)) (acc : List (List ℤ) × List ℤ),
      (pts.foldl (chunkStep buffer) acc).1.flatten ++
          (pts.foldl (chunkStep buffer) acc).2 =
        acc.1.flatten ++ acc.2 ++ (pts.map (fun p => [p.1, p.2])).flatten := by
  intro pts
  induction pts with
  | nil => intro acc; simp
  | cons p rest ih =>
    intro acc
    rw [List.foldl_cons, ih]
    unfold chunkStep
    split_ifs <;> simp

private lemma foldl_chunk_snd_ne_nil (buffer : ℕ) :
    ∀ (pts : List (ℤ × ℤ)) (acc : List (List ℤ) × List ℤ), pts ≠ [] →
      (pts.foldl (chunkStep buffer) acc).2 ≠ [] := by
  intro pts
  induction pts with
  | nil => intro acc h; exact absurd rfl h
  | cons p rest ih =>
    intro acc _
    rw [List.foldl_cons]
    cases h : rest with
    | nil =>
      simp only [List.foldl_nil]
      unfold chunkStep
      split_ifs <;> simp
    | cons q rest' =>
      rw [← h]
      exact ih _ (by simp [h])

private lemma foldl_chunk_bounded (buffer : ℕ) :
    ∀ (pts : List (ℤ × ℤ)) (acc : List (List ℤ) × List ℤ),
      (∀ p ∈ pts, (paInstr [p.1, p.2]).length ≤ buffer) →
      (∀ c ∈ acc.1, c ≠ [] ∧ (paInstr c).length ≤ buffer) →
      (acc.2 = [] ∨ (acc.2 ≠ [] ∧ (paInstr acc.2).length ≤ buffer)) →
      (∀ c ∈ (pts.foldl (chunkStep buffer) acc).1,
        c ≠ [] ∧ (paInstr c).length ≤ buffer) ∧
      ((pts.foldl (chunkStep buffer) acc).2 = [] ∨
        ((pts.foldl (chunkStep buffer) acc).2 ≠ [] ∧
          (paInstr (pts.foldl (chunkStep buffer) acc).2).length ≤ buffer)) := by
  intro pts
  induction pts with
  | nil => intro acc _ h1 h2; exact ⟨h1, h2⟩
  | cons p rest ih =>
    intro acc hfit h1 h2
    rw [List.foldl_cons]
    have hp := hfit p (List.mem_cons_self p rest)
    have hrest : ∀ q ∈ rest, (paInstr [q.1, q.2]).length ≤ buffer := fun q hq =>
      hfit q (List.mem_cons_of_mem p hq)
    refine ih (chunkStep buffer acc p) hrest ?_ ?_
    · unfold chunkStep
      split_ifs with hov
      · intro c hc
        rcases List.mem_append.mp hc with hc' | hc'
        · exact h1 c hc'
        · rw [List.mem_singleton] at hc'
          subst hc'
          rcases h2 with hnil | ⟨hne, hbound⟩
          · rw [hnil] at hov
            simp only [List.nil_append] at hov
            omega
          · exact ⟨hne, hbound⟩
      · exact h1
    · unfold chunkStep
      split_ifs with hov
      · exact Or.inr ⟨by simp, hp⟩
      · push_neg at hov
        exact Or.inr ⟨by simp, hov⟩

/-- Claim C3 (amended): unconditionally, the concatenation of all chunks
is exactly the converted coordinate list, preserving order and values; and
provided every single converted point already fits on its own (the
simulated two-coordinate instruction `PA<x>,<y>;` is within the buffer
capacity), the greedy chunking of `drawLines` produces only non-empty
chunks whose simulated instructions stay within the buffer capacity. -/
theorem drawLines_chunks_bounded_and_order_preserving (buffer : ℕ)
    (pts : List (ℤ × ℤ)) :
    (chunkPoints buffer pts).flatten = (pts.map (fun p => [p.1, p.2])).flatten ∧
    ((∀ p ∈ pts, (paInstr [p.1, p.2]).length ≤ buffer) → pts ≠ [] →
      ∀ c ∈ chunkPoints buffer pts,
        c ≠ [] ∧ (paInstr c).length ≤ buffer) := by
  constructor
  · unfold chunkPoints
    have h := foldl_chunk_join buffer pts ([], [])
    simp only [List.flatten_append, List.flatten_cons, List.flatten_nil,
      List.append_nil] at h ⊢
    simpa using h
  · intro hfit hne c hc
    unfold chunkPoints at hc
    obtain ⟨hdone, hcur⟩ := foldl_chunk_bounded buffer pts ([], []) hfit
      (by simp) (Or.inl rfl)
    rcases List.mem_append.mp hc with hc' | hc'
    · exact hdone c hc'
    · rw [List.mem_singleton] at hc'
      subst hc'
      rcases hcur with hnil | h
      · exact absurd hnil (foldl_chunk_snd_ne_nil buffer pts ([], []) hne)
      · exact h

/-- Witness for `drawLines_chunks_bounded_and_order_preserving`: buffer 60
(the GENERIC profile), three points. -/
theorem drawLines_chunks_bounded_witness :
    ((∀ p ∈ ([(100, 200), (300, 400), (7000, 8000)] : List (ℤ × ℤ)),
      (paInstr [p.1, p.2]).length ≤ 60) ∧
      ([(100, 200), (300, 400), (7000, 8000)] : List (ℤ × ℤ)) ≠ []) ∧
    ((chunkPoints 60 [(100, 200), (300, 400), (7000, 8000)]).flatten =
      (([(100, 200), (300, 400), (7000, 8000)] : List (ℤ × ℤ)).map
        (fun p => [p.1, p.2])).flatten ∧
      ∀ c ∈ chunkPoints 60 [(100, 200), (300, 400), (7000, 8000)],
        c ≠ [] ∧ (paInstr c).length ≤ 60) :=
  ⟨⟨by decide, by decide⟩,
    ⟨(drawLines_chunks_bounded_and_order_preserving 60 _).1,
      (drawLines_chunks_bounded_and_order_preserving 60 _).2 (by decide)
        (by decide)⟩⟩

/-! ## Device profiles and coordinate transformation
(src/hpgl.js lines 128-451, 1477-1495, 2112-2121)

A `PlotterCharacteristics` record: only the fields the verified claims
read.  Paper margins are optional (most profile papers define none);
reading a field of an `undefined` JS value throws a `TypeError`, modelled
by `JsError.typeError`. -/

/-- A thrown JavaScript exception. -/
inductive JsError where
  | typeError
  | error (msg : String)
  deriving Repr, DecidableEq

/-- Margins of one orientation (plotter units). -/
structure Margins where
  top : ℤ
  right : ℤ
  bottom : ℤ
  left : ℤ
  deriving Repr, DecidableEq

/-- The `margins` record of a paper entry: one `Margins` per orientation. -/
structure OrientMargins where
  landscape : Margins
  portrait : Margins
  deriving Repr, DecidableEq

/-- One paper entry of a profile's `papers` table. -/
structure Paper where
  long : ℤ
  short : ℤ
  psCode : Option ℕ := none
  margins : Option OrientMargins := none
  deriving Repr, DecidableEq

/-- The profile fields read by the embedded operations. -/
structure Characteristics where
  buffer : ℕ
  papersList : List String
  papers : List (String × Paper)
  resolutionX : ℚ
  instructions : List String
  deriving Repr

/-- JS property read `characteristics.papers[name]` (an association-list
lookup; `none` is `undefined`). -/
def papersGet (chars : Characteristics) (name : String) : Option Paper :=
  (chars.papers.find? (fun e => e.1 == name)).map Prod.snd

/-- JS `margins[orientation]` for the two orientation strings. -/
def marginsFor (ms : OrientMargins) (orientation : String) : Option Margins :=
  if orientation == "landscape" then some ms.landscape
  else if orientation == "portrait" then some ms.portrait
  else none

/-- The `Models.GENERIC` profile (src/hpgl.js lines 163-186): none of its
four papers defines a `margins` entry. -/
def genericModel : Characteristics where
  buffer := 60
  papersList := ["A", "B", "A4", "A3"]
  papers :=
    [("A4", { long := 10870, short := 7600 }),
     ("A3", { long := 15970, short := 10870 }),
     ("A", { long := 10170, short := 7840 }),
     ("B", { long := 16450, short := 10170 })]
  resolutionX := 40
  instructions :=
    ["AA", "AP", "AR", "AS", "BF", "BL", "CA", "CI", "CM", "CP", "CS", "CT",
     "CV", "DC", "DF", "DI", "DL", "DP", "DR", "DS", "DT", "EA", "EP", "ER",
     "ES", "EW", "FP", "FS", "FT", "GC", "GM", "IM", "IN", "IP", "IV", "IW",
     "KY", "LB", "LO", "LT", "NR", "OA", "OC", "OD", "OE", "OF", "OG", "OH",
     "OI", "OK", "OL", "OO", "OP", "OS", "OT", "OW", "PA", "PB", "PD", "PG",
     "PM", "PR", "PT", "PU", "RA", "RO", "RP", "RR", "SA", "SC", "SI", "SL",
     "SM", "SP", "SR", "SS", "TL", "UC", "UF", "VS", "WD", "WG", "XT", "YT"]

/-- The `Plotter` state read by the coordinate-consuming drawing calls. -/
structure PlotterEnv where
  characteristics : Option Characteristics
  paper : String
  orientation : String

/-- Embedding of `Plotter.prototype._toAbsoluteHpglCoordinates`: reads
`papers[this.paper].margins[this.orientation]` unconditionally — a missing
paper entry or a missing `margins` record is a `TypeError` — then
compensates for the left/top margins and flips one axis. -/
def toAbsoluteHpglCoordinates (chars : Characteristics)
    (paper orientation : String) (x y : ℤ) : Except JsError (ℤ × ℤ) :=
  match papersGet chars paper with
  | none => .error .typeError
  | some p =>
    match p.margins with
    | none => .error .typeError
    | some ms =>
      match marginsFor ms orientation with
      | none => .error .typeError
      | some m =>
        let x1 := x - m.left
        let y1 := y - m.top
        if orientation == "landscape" then .ok (x1, p.short - y1)
        else .ok (p.short - x1, y1)

/-- `_toAbsoluteHpglCoordinates` on a `PlotterEnv` (reading
`this.characteristics.papers` of an undefined `characteristics` throws). -/
def toAbsEnv (env : PlotterEnv) (x y : ℤ) : Except JsError (ℤ × ℤ) :=
  match env.characteristics with
  | none => .error .typeError
  | some ch => toAbsoluteHpglCoordinates ch env.paper env.orientation x y

/-- The x-resolution as `_toPlotterUnits` sees it from a `PlotterEnv`. -/
def envResolutionX (env : PlotterEnv) : Option ℚ :=
  env.characteristics.map (fun ch => ch.resolutionX)

/-- Embedding of `Plotter.prototype.moveTo`: converts the position and
queues `"PU" + x + "," + y`. -/
def moveToInstr (env : PlotterEnv) (x y : ℚ) (metric : Bool) :
    Except JsError String :=
  (toAbsEnv env (toPlotterUnits (envResolutionX env) x metric)
      (toPlotterUnits (envResolutionX env) y metric)).map
    (fun p => "PU" ++ toString p.1 ++ "," ++ toString p.2)

/-- One iteration of the conversion loop of `drawLines`: convert the pair
(a possible `TypeError`), then raise the unknown-buffer error when not
connected and `characteristics.buffer` is falsy. -/
def drawLinesConvert (env : PlotterEnv) (connected : Bool) (buf : ℕ)
    (q : ℚ × ℚ) : Except JsError (ℤ × ℤ) :=
  match toAbsEnv env (toPlotterUnits (envResolutionX env) q.1 true)
      (toPlotterUnits (envResolutionX env) q.2 true) with
  | .error e => .error e
  | .ok p =>
    if ¬connected ∧ buf = 0 then
      Except.error (JsError.error
        "The drawLines() function cannot properly chunk the instructions")
    else Except.ok p

/-- Embedding of `Plotter.prototype.drawLines` (positions given as (x, y)
pairs in cm): line-pattern defaulting (`none` is `NaN`), per-point
conversion (which can throw a `TypeError`), the unknown-buffer error when
not connected, greedy chunking, and the queued instruction list (`LT` is
always queued; `PD`/`PA…`/`PU` only when `chunks[0]` is non-empty). -/
def drawLinesModel (env : PlotterEnv) (connected : Bool)
    (positions : List (ℚ × ℚ)) (linePattern : Option ℤ) :
    Except JsError (List String) :=
  let lp : ℤ :=
    match linePattern with
    | some n => if n < 0 ∨ n > 7 then 7 else n
    | none => 7
  let lt := if lp = 7 then "LT" else "LT" ++ toString lp
  let buf : ℕ :=
    match env.characteristics with
    | some ch => ch.buffer
    | none => 0
  match positions.mapM (drawLinesConvert env connected buf) with
  | .error e => .error e
  | .ok pts =>
    let chunks := chunkPoints buf pts
    if (chunks.headD []).isEmpty then .ok [lt]
    else .ok ([lt, "PD"] ++ chunks.map (fun c => "PA" ++ joinComma c) ++ ["PU"])

/-- Embedding of `Plotter.prototype.drawLine`: delegates to
`drawLines([x, y])`. -/
def drawLineModel (env : PlotterEnv) (connected : Bool) (x y : ℚ) :
    Except JsError (List String) :=
  drawLinesModel env connected [(x, y)] none

/-- The state used by the C9 theorems: GENERIC profile, paper `"A"`,
landscape (all GENERIC papers lack a `margins` entry). -/
def genericEnv : PlotterEnv where
  characteristics := some genericModel
  paper := "A"
  orientation := "landscape"

/-- Claim C9, counterexample: `drawLines([])` (the default, empty point
list) on the GENERIC profile — whose paper `"A"` has no margins entry —
does *not* fail: the conversion loop never runs, `LT` is queued, and the
call returns normally, so not *every* `drawLines` call fails. -/
theorem drawLines_empty_succeeds_without_margins :
    (∀ pd, papersGet genericModel "A" = some pd → pd.margins = none) ∧
    drawLinesModel genericEnv true [] none = .ok ["LT"] := by
  refine ⟨by decide, rfl⟩

/-- Claim C9 (amended): `_toAbsoluteHpglCoordinates` unconditionally reads
the active paper's margins for the current orientation, so whenever the
active paper profile defines no margins entry, every `moveTo` call, every
`drawLine` call, and every `drawLines` call that processes at least one
point throws a `TypeError` instead of producing coordinates (a `drawLines`
call with an empty point list converts nothing and succeeds). -/
theorem margins_missing_fails_coordinate_calls
    (env : PlotterEnv) (ch : Characteristics) (pd : Paper)
    (hch : env.characteristics = some ch)
    (hpd : papersGet ch env.paper = some pd) (hm : pd.margins = none) :
    (∀ x y : ℚ, ∀ metric, moveToInstr env x y metric = .error .typeError) ∧
    (∀ x y : ℚ, ∀ connected, drawLineModel env connected x y =
      .error .typeError) ∧
    (∀ positions : List (ℚ × ℚ), positions ≠ [] → ∀ lp connected,
      drawLinesModel env connected positions lp = .error .typeError) := by
  have habs : ∀ x y : ℤ, toAbsEnv env x y = .error .typeError := by
    intro x y
    simp [toAbsEnv, hch, toAbsoluteHpglCoordinates, hpd, hm]
  have hpoint : ∀ (connected : Bool) (buf : ℕ) (q : ℚ × ℚ),
      drawLinesConvert env connected buf q = .error .typeError := by
    intro connected buf q
    unfold drawLinesConvert
    rw [habs]
  have hmapM : ∀ (connected : Bool) (buf : ℕ) (q : ℚ × ℚ)
      (rest : List (ℚ × ℚ)),
      (q :: rest).mapM (drawLinesConvert env connected buf) =
        .error .typeError := by
    intro connected buf q rest
    rw [List.mapM_cons, hpoint]
    rfl
  have hdraw : ∀ positions : List (ℚ × ℚ), positions ≠ [] → ∀ lp connected,
      drawLinesModel env connected positions lp = .error .typeError := by
    intro positions hne lp connected
    cases positions with
    | nil => exact absurd rfl hne
    | cons q rest =>
      simp only [drawLinesModel, hmapM]
  refine ⟨?_, ?_, hdraw⟩
  · intro x y metric
    unfold moveToInstr
    rw [habs]
    rfl
  · intro x y connected
    exact hdraw [(x, y)] (by simp) none connected

/-- Witness for `margins_missing_fails_coordinate_calls` on the GENERIC
profile with paper `"A"`. -/
theorem margins_missing_fails_coordinate_calls_witness :
    (genericEnv.characteristics = some genericModel ∧
      papersGet genericModel genericEnv.paper =
        some { long := 10170, short := 7840 } ∧
      ({ long := 10170, short := 7840 } : Paper).margins = none) ∧
    (moveToInstr genericEnv 1 1 true = .error .typeError ∧
      drawLineModel genericEnv true 1 1 = .error .typeError ∧
      drawLinesModel genericEnv true [(1, 1), (2, 2)] none =
        .error .typeError) := by
  have h := margins_missing_fails_coordinate_calls genericEnv genericModel
    { long := 10170, short := 7840 } rfl (by decide) rfl
  exact ⟨⟨rfl, by decide, rfl⟩,
    ⟨h.1 1 1 true, h.2.1 1 1 true, h.2.2 [(1, 1), (2, 2)] (by simp) none true⟩⟩

/-! ## Connection configuration: `_configurePlottingEnvironment`
(src/hpgl.js lines 965-1058)

After the model is resolved, the requested paper is applied only when
`options.paper.toUpperCase()` is in `characteristics.papers.list` (no
error otherwise — the previous/default paper stays selected); the
orientation likewise.  Inside the `ESC.L` callback `_onReady` runs first
(setting `ready = true`), then `PS` (when the paper entry has a
`psCode`), `RO0`/`RO90`, `IP` and `IW` are queued; only a non-landscape
orientation on a device without the `RO` instruction throws. -/

/-- JS `string.toUpperCase()` (ASCII range suffices here). -/
def jsToUpperCase (s : String) : String := String.mk (s.toList.map Char.toUpper)

/-- JS `string.toLowerCase()` (ASCII range suffices here). -/
def jsToLowerCase (s : String) : String := String.mk (s.toList.map Char.toLower)

/-- The `ORIENTATIONS` constant (src/hpgl.js line 42). -/
def orientationsList : List String := ["portrait", "landscape"]

/-- The `options` argument of `connect` / `initialize` (absent fields are
`undefined`). -/
structure ConnectOptions where
  paper : Option String := none
  orientation : Option String := none

/-- Observable outcome of the paper/orientation part of
`_configurePlottingEnvironment`: the selected paper and orientation, the
HP-GL instructions queued inside the `ESC.L` callback, whether `_onReady`
ran, and the error thrown (if any). -/
structure ConfigOutcome where
  paper : String
  orientation : String
  ready : Bool
  queued : List String
  error : Option JsError
  deriving Repr, DecidableEq

/-- Embedding of the paper/orientation logic of
`Plotter.prototype._configurePlottingEnvironment` (from the model having
been resolved to `chars` onwards; `paper0` / `orientation0` are the current
`this.paper` / `this.orientation`, `"A"` and `"landscape"` on a fresh
Plotter).  `_onReady` runs before the `PS`/`RO` queueing, so `ready` is
true even on the unsupported-orientation throw. -/
def configurePlottingEnvironment (chars : Characteristics)
    (opts : ConnectOptions) (paper0 orientation0 : String) : ConfigOutcome :=
  let paper :=
    match opts.paper with
    | some p => if chars.papersList.contains (jsToUpperCase p) then
        jsToUpperCase p else paper0
    | none => paper0
  let orientation :=
    match opts.orientation with
    | some o => if orientationsList.contains (jsToLowerCase o) then
        jsToLowerCase o else orientation0
    | none => orientation0
  match papersGet chars paper with
  | none =>
    { paper := paper, orientation := orientation, ready := true,
      queued := [], error := some .typeError }
  | some pd =>
    let psQueued : List String :=
      match pd.psCode with
      | some code => ["PS" ++ toString code]
      | none => []
    if orientation == "landscape" then
      { paper := paper, orientation := orientation, ready := true,
        queued := psQueued ++ ["RO0", "IP", "IW"], error := none }
    else if chars.instructions.contains "RO" then
      { paper := paper, orientation := orientation, ready := true,
        queued := psQueued ++ ["RO90", "IP", "IW"], error := none }
    else
      { paper := paper, orientation := orientation, ready := true,
        queued := psQueued,
        error := some (.error ("The device does not support the '" ++
          orientation ++ "' orientation.")) }

/-- The profile of the C6 scenario: supported papers `["A","B","A4"]` (no
`"A3"`), rotation (`RO`) supported. -/
def scenarioProfileC6 : Characteristics where
  buffer := 1024
  papersList := ["A", "B", "A4"]
  papers :=
    [("A", { long := 10365, short := 7962, psCode := some 4 }),
     ("B", { long := 16640, short := 10365, psCode := some 0 }),
     ("A4", { long := 11040, short := 7721, psCode := some 4 })]
  resolutionX := 40
  instructions := ["IN", "IP", "IW", "LT", "PA", "PD", "PS", "PU", "RO"]

/-- Claim C6, counterexample: connecting with `{paper: "A3", orientation:
"portrait"}` against a profile whose supported list is `["A","B","A4"]`
raises *no* error at all — the unsupported paper size is silently ignored
(the default paper `"A"` stays selected) and the sequence reaches Ready
(`_onReady` runs, `error = none`). -/
theorem connect_unsupported_paper_silently_ignored :
    configurePlottingEnvironment scenarioProfileC6
      { paper := some "A3", orientation := some "portrait" } "A" "landscape" =
      { paper := "A", orientation := "portrait", ready := true,
        queued := ["PS4", "RO90", "IP", "IW"], error := none } := by
  rfl

/-- Claim C6 (amended): a requested paper size whose upper-cased name is
not in the resolved profile's supported list is *silently ignored* — the
previously selected paper is kept, no unsupported-paper-size error is ever
raised, and (whenever the resolved orientation is landscape or the device
supports `RO`) the connection sequence still reaches Ready with no error. -/
theorem connect_unsupported_paper_keeps_default (chars : Characteristics)
    (p o paper0 orientation0 : String) (pd : Paper)
    (hp : chars.papersList.contains (jsToUpperCase p) = false)
    (hpd : papersGet chars paper0 = some pd)
    (hro : chars.instructions.contains "RO" = true) :
    (configurePlottingEnvironment chars
        { paper := some p, orientation := some o } paper0 orientation0).paper =
      paper0 ∧
    (configurePlottingEnvironment chars
        { paper := some p, orientation := some o } paper0
        orientation0).ready = true ∧
    (configurePlottingEnvironment chars
        { paper := some p, orientation := some o } paper0
        orientation0).error = none := by
  unfold configurePlottingEnvironment
  simp only [hp, Bool.false_eq_true, if_false, hpd]
  split_ifs <;> simp_all

/-- Witness for `connect_unsupported_paper_keeps_default` at the scenario
input (`paper: "A3"`, `orientation: "portrait"`, profile without A3). -/
theorem connect_unsupported_paper_keeps_default_witness :
    (scenarioProfileC6.papersList.contains (jsToUpperCase "A3") = false ∧
      papersGet scenarioProfileC6 "A" =
        some { long := 10365, short := 7962, psCode := some 4 } ∧
      scenarioProfileC6.instructions.contains "RO" = true) ∧
    ((configurePlottingEnvironment scenarioProfileC6
        { paper := some "A3", orientation := some "portrait" } "A"
        "landscape").paper = "A" ∧
      (configurePlottingEnvironment scenarioProfileC6
        { paper := some "A3", orientation := some "portrait" } "A"
        "landscape").ready = true ∧
      (configurePlottingEnvironment scenarioProfileC6
        { paper := some "A3", orientation := some "portrait" } "A"
        "landscape").error = none) :=
  ⟨⟨by decide, by decide, by decide⟩,
    connect_unsupported_paper_keeps_default scenarioProfileC6 "A3" "portrait"
      "A" "landscape" { long := 10365, short := 7962, psCode := some 4 }
      (by decide) (by decide) (by decide)⟩

/-! ## The drain cycle: `_processQueue`, `send` and `once("data")`
(src/hpgl.js lines 2477-2549, 1591-1663, 1529-1549)

Small-step, event-driven embedding of the connected-mode flow controller.
The JavaScript is single-threaded: each timer callback and each complete
(CR-terminated) inbound response runs to completion.  The machine state
holds

* `this._queue`,
* whether the drain timer is pending (`_queueTimeOutId !== 0`) — the two
  `setTimeout` handles are collapsed into one flag, a sound abstraction
  because a flag can fire only once per arming,
* whether the `to` retry timeout armed inside `_processQueue` is pending
  (likewise collapsed into one flag), and
* the list of pending `once("data")` listeners, in registration order:
  the response-delivery listener registered by `send(…, cb, true)`, the
  `ESC.B` buffer-space handler registered by `_processQueue`, and the
  re-arm listener registered after a `waitForResponse` command is sent.

External events are: the drain timer firing, the retry timeout firing, one
complete data response arriving (its payload `some n` when it reads as a
number, `none` otherwise — a `NaN` comparison is false), and a `queue()`
call pushing already-validated commands (splitting/validation is
`queueOp`).  Each event yields a list of observable labels: `sendBufQuery`
(the out-of-band `ESC.B` write), `transmit c` (a queued command dequeued
and written by `send`), and `dataObserved d` (the response event itself,
emitted before its listeners run).  Node's `EventEmitter` runs the
listeners registered at emit time: listeners added during the emit only
see the next event, and an exception thrown by a listener (`this._queue[0]`
of an empty queue) aborts the emit — modelled by `crashed`, which halts
the machine. -/

/-- A pending `once("data")` listener. -/
inductive Listener (α : Type) where
  | sendCallback (cb : Option α)
  | bufferQuery
  | requeue
  deriving Repr, DecidableEq

/-- An external event delivered to the single-threaded engine. -/
inductive Event (α : Type) where
  | timerFire
  | retryFire
  | data (d : Option ℕ)
  | enqueue (cmds : List (Command α))
  deriving Repr, DecidableEq

/-- An observable action of the engine. -/
inductive Label (α : Type) where
  | sendBufQuery
  | transmit (c : Command α)
  | dataObserved (d : Option ℕ)
  deriving Repr, DecidableEq

/-- The flow-controller state. -/
structure EngineState (α : Type) where
  queue : List (Command α)
  timerArmed : Bool
  retryArmed : Bool
  listeners : List (Listener α)
  crashed : Bool
  deriving Repr, DecidableEq

/-- A fresh `Plotter`'s engine state. -/
def initialEngine {α : Type} : EngineState α :=
  { queue := [], timerArmed := false, retryArmed := false, listeners := [],
    crashed := false }

/-- The body of `_processQueue` (connected branch): cancel & zero the drain
timer, exit on an empty queue, otherwise arm the `to` retry timeout and
send the out-of-band `ESC.B` buffer-space query, registering its
`once("data")` handler. -/
def processQueue (st : EngineState α) : EngineState α × List (Label α) :=
  let st1 := { st with timerArmed := false }
  if st1.queue.isEmpty then (st1, [])
  else
    ({ st1 with
        retryArmed := true,
        listeners := st1.listeners ++ [Listener.bufferQuery] },
      [Label.sendBufQuery])

/-- Execution of one pending `once("data")` listener on the response `d`.
The `ESC.B` handler clears its retry timeout, then compares
`this._queue[0].instruction.length <= data`: on an empty queue the property
read throws (`crashed`); on a non-numeric `data`, the comparison is false
and the timer is re-armed; if the head fits it is shifted and sent
(label `transmit`), registering the response listener and the re-arm
listener when it awaits a response, re-arming immediately when it does not
and more commands remain; if it does not fit the timer is re-armed. -/
def runListener (st : EngineState α) (d : Option ℕ) :
    Listener α → EngineState α × List (Label α)
  | .sendCallback _ => (st, [])
  | .requeue => ({ st with timerArmed := true }, [])
  | .bufferQuery =>
    let st1 := { st with retryArmed := false }
    match st1.queue with
    | [] => ({ st1 with crashed := true }, [])
    | c :: rest =>
      match d with
      | some n =>
        if c.instruction.length ≤ n then
          let st2 := { st1 with queue := rest }
          if c.waitForResponse then
            ({ st2 with
                listeners := st2.listeners ++
                  [Listener.sendCallback c.callback, Listener.requeue] },
              [Label.transmit c])
          else if rest.isEmpty then (st2, [Label.transmit c])
          else ({ st2 with timerArmed := true }, [Label.transmit c])
        else ({ st1 with timerArmed := true }, [])
      | none => ({ st1 with timerArmed := true }, [])

/-- Runs a snapshot of listeners in order; a crash aborts the emit. -/
def runListeners (st : EngineState α) (d : Option ℕ) :
    List (Listener α) → EngineState α × List (Label α)
  | [] => (st, [])
  | l :: rest =>
    if st.crashed then (st, [])
    else
      ((runListeners (runListener st d l).1 d rest).1,
        (runListener st d l).2 ++ (runListeners (runListener st d l).1 d rest).2)

/-- One complete CR-terminated response: `_onData` emits the `data` event;
the pending `once` listeners are detached and run in order (listeners
registered during the emit wait for the next response). -/
def runData (st : EngineState α) (d : Option ℕ) :
    EngineState α × List (Label α) :=
  ((runListeners { st with listeners := [] } d st.listeners).1,
    Label.dataObserved d ::
      (runListeners { st with listeners := [] } d st.listeners).2)

/-- One external event. A `queue()` call appends its commands and arms the
drain timer when `_queueTimeOutId === 0` (so arming when it was armed
leaves it armed). -/
def runEvent (st : EngineState α) : Event α → EngineState α × List (Label α)
  | .timerFire =>
    if st.crashed then (st, [])
    else if st.timerArmed then processQueue st else (st, [])
  | .retryFire =>
    if st.crashed then (st, [])
    else if st.retryArmed then
      ({ st with retryArmed := false, timerArmed := true }, [])
    else (st, [])
  | .data d => if st.crashed then (st, []) else runData st d
  | .enqueue cmds =>
    if st.crashed then (st, [])
    else ({ st with queue := st.queue ++ cmds, timerArmed := true }, [])

/-- Runs an event list, concatenating the emitted labels. -/
def runEvents (st : EngineState α) : List (Event α) → EngineState α × List (Label α)
  | [] => (st, [])
  | e :: rest =>
    ((runEvents (runEvent st e).1 rest).1,
      (runEvent st e).2 ++ (runEvents (runEvent st e).1 rest).2)

/-- The queued commands transmitted in a label sequence, in order. -/
def transmittedOf (labs : List (Label α)) : List (Command α) :=
  labs.filterMap (fun l =>
    match l with
    | .transmit c => some c
    | _ => none)

/-- The commands enqueued by an event list, in order. -/
def enqueuedOf (evs : List (Event α)) : List (Command α) :=
  (evs.map (fun e =>
    match e with
    | .enqueue cmds => cmds
    | _ => [])).flatten

/-! ### Claim C2: FIFO order -/

private lemma transmittedOf_append (xs ys : List (Label α)) :
    transmittedOf (xs ++ ys) = transmittedOf xs ++ transmittedOf ys := by
  unfold transmittedOf
  exact List.filterMap_append xs ys _

private lemma runEvent_crash_sticky (st : EngineState α) (e : Event α)
    (h : st.crashed = true) : runEvent st e = (st, []) := by
  cases e <;> simp [runEvent, h, runData]

private lemma runEvents_crash_sticky :
    ∀ (evs : List (Event α)) (st : EngineState α), st.crashed = true →
      runEvents st evs = (st, []) := by
  intro evs
  induction evs with
  | nil => intro st h; rfl
  | cons e rest ih =>
    intro st h
    simp [runEvents, runEvent_crash_sticky st e h, ih st h]

private lemma runListener_queue (st : EngineState α) (d : Option ℕ)
    (l : Listener α) :
    transmittedOf (runListener st d l).2 ++ (runListener st d l).1.queue =
      st.queue := by
  cases l with
  | sendCallback cb => simp [runListener, transmittedOf]
  | requeue => simp [runListener, transmittedOf]
  | bufferQuery =>
    cases hq : st.queue with
    | nil => simp [runListener, hq, transmittedOf]
    | cons c rest =>
      cases d with
      | none => simp [runListener, hq, transmittedOf]
      | some n =>
        by_cases hfit : c.instruction.length ≤ n
        · by_cases hwfr : c.waitForResponse = true
          · simp [runListener, hq, hfit, hwfr, transmittedOf]
          · by_cases hrest : rest.isEmpty
            · simp [runListener, hq, hfit, hwfr, hrest, transmittedOf,
                List.isEmpty_iff.mp hrest]
            · simp [runListener, hq, hfit, hwfr, hrest, transmittedOf]
        · simp [runListener, hq, hfit, transmittedOf]

private lemma runListeners_queue (d : Option ℕ) :
    ∀ (ls : List (Listener α)) (st : EngineState α),
      transmittedOf (runListeners st d ls).2 ++
        (runListeners st d ls).1.queue = st.queue := by
  intro ls
  induction ls with
  | nil => intro st; simp [runListeners, transmittedOf]
  | cons l rest ih =>
    intro st
    by_cases hcr : st.crashed
    · simp [runListeners, hcr, transmittedOf]
    · simp only [runListeners, hcr, if_false, Bool.false_eq_true,
        transmittedOf_append, List.append_assoc]
      rw [ih, runListener_queue]

private lemma runEvent_queue (st : EngineState α) (e : Event α)
    (hcr : st.crashed = false) :
    transmittedOf (runEvent st e).2 ++ (runEvent st e).1.queue =
      st.queue ++ (match e with
        | .enqueue cmds => cmds
        | _ => []) := by
  cases e with
  | timerFire =>
    by_cases ht : st.timerArmed
    · by_cases hq : st.queue.isEmpty
      · simp [runEvent, hcr, ht, processQueue, hq, transmittedOf]
      · simp [runEvent, hcr, ht, processQueue, hq, transmittedOf]
    · simp [runEvent, hcr, ht, transmittedOf]
  | retryFire =>
    by_cases hr : st.retryArmed <;> simp [runEvent, hcr, hr, transmittedOf]
  | data d =>
    have h := runListeners_queue d st.listeners { st with listeners := [] }
    rw [hcr] at h
    simp only [transmittedOf] at h ⊢
    simp only [runEvent, hcr, if_false, Bool.false_eq_true, runData,
      List.filterMap_cons, List.append_nil]
    exact h
  | enqueue cmds => simp [runEvent, hcr, transmittedOf]

private lemma runEvents_queue :
    ∀ (evs : List (Event α)) (st : EngineState α),
      (runEvents st evs).1.crashed = false →
      transmittedOf (runEvents st evs).2 ++ (runEvents st evs).1.queue =
        st.queue ++ enqueuedOf evs := by
  intro evs
  induction evs with
  | nil => intro st _; simp [runEvents, transmittedOf, enqueuedOf]
  | cons e rest ih =>
    intro st h
    have hfin : ((runEvents (runEvent st e).1 rest).1).crashed = false := h
    have h1 : (runEvent st e).1.crashed = false := by
      by_contra hc
      rw [Bool.not_eq_false] at hc
      rw [runEvents_crash_sticky rest _ hc] at hfin
      rw [hc] at hfin
      simp at hfin
    have h0 : st.crashed = false := by
      by_contra hc
      rw [Bool.not_eq_false] at hc
      rw [runEvent_crash_sticky st e hc] at h1
      rw [hc] at h1
      simp at h1
    simp only [runEvents, transmittedOf_append, List.append_assoc]
    rw [ih _ hfin, ← List.append_assoc, runEvent_queue st e h0]
    simp only [enqueuedOf, List.map_cons, List.flatten_cons, List.append_assoc]

/-- Claim C2: the drain cycle is strictly FIFO — for every event sequence
(enqueues, timer fires, retry fires, data responses) along which the
engine does not crash, the sequence of commands transmitted by
`_processQueue` (always shifted from the head), followed by the commands
still queued, is exactly the sequence of commands enqueued, in enqueue
order; hence the transmitted sequence is an order-preserving prefix of the
enqueued sequence — no reordering or priority jumps ever occur. -/
theorem queue_fifo_order {α : Type} (evs : List (Event α))
    (hok : (runEvents initialEngine evs).1.crashed = false) :
    transmittedOf (runEvents initialEngine evs).2 ++
        (runEvents initialEngine evs).1.queue = enqueuedOf evs ∧
    ∃ rest, enqueuedOf evs =
      transmittedOf (runEvents initialEngine evs).2 ++ rest := by
  have h := runEvents_queue evs initialEngine hok
  simp only [initialEngine, List.nil_append] at h
  exact ⟨h, ⟨(runEvents initialEngine evs).1.queue, h.symm⟩⟩

/-- A response-awaiting drawing command and a plain command, used by the
concrete traces below. -/
def cmdOA : Command ℕ :=
  { instruction := "OA", callback := some 1, waitForResponse := true }

/-- A fire-and-forget command. -/
def cmdPD : Command ℕ := { instruction := "PD" }

/-- A well-paced run: enqueue both commands, drain, answer the buffer
query, answer the `OA` response, drain again, answer the second buffer
query. -/
def goodTrace : List (Event ℕ) :=
  [Event.enqueue [cmdOA, cmdPD], Event.timerFire, Event.data (some 100),
   Event.data (some 99), Event.timerFire, Event.data (some 100)]

/-- Witness for `queue_fifo_order` on `goodTrace`. -/
theorem queue_fifo_order_witness :
    (runEvents initialEngine goodTrace).1.crashed = false ∧
    (transmittedOf (runEvents initialEngine goodTrace).2 ++
        (runEvents initialEngine goodTrace).1.queue = enqueuedOf goodTrace ∧
      ∃ rest, enqueuedOf goodTrace =
        transmittedOf (runEvents initialEngine goodTrace).2 ++ rest) :=
  ⟨by decide, queue_fifo_order goodTrace (by decide)⟩

/-! ### Claim C1: at most one response-awaiting command in flight -/

/-- Scans a label sequence: after a `transmit` of a `waitForResponse`
command, any further `transmit` before a `dataObserved` is a violation. -/
def scanOk (blocked : Bool) : List (Label α) → Bool
  | [] => true
  | Label.transmit c :: rest => if blocked then false else scanOk c.waitForResponse rest
  | Label.dataObserved _ :: rest => scanOk false rest
  | Label.sendBufQuery :: rest => scanOk blocked rest

/-- The blocked-state after scanning a label sequence. -/
def scanEnd (b : Bool) : List (Label α) → Bool
  | [] => b
  | Label.transmit c :: rest => scanEnd c.waitForResponse rest
  | Label.dataObserved _ :: rest => scanEnd false rest
  | Label.sendBufQuery :: rest => scanEnd b rest

/-- The claimed property of a run: after the transmission of a command
whose `waitForResponse` flag is set, no further queued command is
transmitted until a data response has been observed. -/
def respectsSingleInFlight (labs : List (Label α)) : Bool := scanOk false labs

/-- A run in which the `ESC.B` reply is lost: the retry timeout re-arms the
drain timer while the first buffer-query listener is still registered, so
the next response fires two buffer-query handlers back to back. -/
def staleQueryTrace : List (Event ℕ) :=
  [Event.enqueue [cmdOA, cmdPD], Event.timerFire, Event.retryFire,
   Event.timerFire, Event.data (some 100)]

/-- Claim C1, counterexample: on `staleQueryTrace` the single data response
fires both pending buffer-query handlers in order — the first transmits
the response-awaiting `OA`, the second immediately transmits `PD` within
the same `data` event, i.e. *before* any further data response is
observed. The invariant therefore does not hold of every reachable run. -/
theorem single_in_flight_violated :
    (runEvents initialEngine staleQueryTrace).2 =
      [Label.sendBufQuery, Label.sendBufQuery, Label.dataObserved (some 100),
        Label.transmit cmdOA, Label.transmit cmdPD] ∧
    cmdOA.waitForResponse = true ∧
    respectsSingleInFlight (runEvents initialEngine staleQueryTrace).2 =
      false := by
  refine ⟨by decide, rfl, by decide⟩

/-- Recognizes the `ESC.B` buffer-query listener. -/
def isBufferQueryListener : Listener α → Bool
  | .bufferQuery => true
  | _ => false

/-- Number of pending buffer-query listeners. -/
def bqCount (ls : List (Listener α)) : ℕ := ls.countP isBufferQueryListener

/-- A run is single-query-paced when every data response arrives while at
most one buffer-space query is outstanding (the regime without the stale
retry listener of `staleQueryTrace`). -/
def singleQueryPaced (st : EngineState α) : List (Event α) → Bool
  | [] => true
  | e :: rest =>
    (match e with
     | .data _ => decide (bqCount st.listeners ≤ 1)
     | _ => true) && singleQueryPaced (runEvent st e).1 rest

/-- Recognizes `transmit` labels. -/
def isTransmitLabel : Label α → Bool
  | .transmit _ => true
  | _ => false

/-- Number of queued-command transmissions in a label sequence. -/
def countTransmit (labs : List (Label α)) : ℕ := labs.countP isTransmitLabel

private lemma scanOk_append (ys : List (Label α)) :
    ∀ (xs : List (Label α)) (b : Bool),
      scanOk b (xs ++ ys) = (scanOk b xs && scanOk (scanEnd b xs) ys) := by
  intro xs
  induction xs with
  | nil => intro b; simp [scanOk, scanEnd]
  | cons l rest ih =>
    intro b
    cases l with
    | transmit c =>
      by_cases hb : b
      · simp [scanOk, hb]
      · simp only [List.cons_append, scanOk, scanEnd, hb, if_false]
        exact ih c.waitForResponse
    | dataObserved d => simpa [scanOk, scanEnd] using ih false
    | sendBufQuery => simpa [scanOk, scanEnd] using ih b

private lemma countTransmit_cons0 (l : Label α) (rest : List (Label α)) :
    countTransmit (l :: rest) =
      countTransmit rest + (if isTransmitLabel l then 1 else 0) := by
  simp [countTransmit, List.countP_cons]

private lemma scanOk_of_no_transmit :
    ∀ (labs : List (Label α)), countTransmit labs = 0 →
      ∀ b, scanOk b labs = true := by
  intro labs
  induction labs with
  | nil => intro _ b; rfl
  | cons l rest ih =>
    intro h b
    rw [countTransmit_cons0] at h
    cases l with
    | transmit c =>
      exact absurd h (by simp [isTransmitLabel])
    | dataObserved d =>
      have h0 : countTransmit rest = 0 := by
        simp [isTransmitLabel] at h
        omega
      exact ih h0 false
    | sendBufQuery =>
      have h0 : countTransmit rest = 0 := by
        simp [isTransmitLabel] at h
        omega
      exact ih h0 b

private lemma scanOk_of_le_one_transmit :
    ∀ (labs : List (Label α)), countTransmit labs ≤ 1 →
      scanOk false labs = true := by
  intro labs
  induction labs with
  | nil => intro _; rfl
  | cons l rest ih =>
    intro h
    rw [countTransmit_cons0] at h
    cases l with
    | transmit c =>
      have h0 : countTransmit rest = 0 := by
        simp [isTransmitLabel] at h
        omega
      simpa [scanOk] using scanOk_of_no_transmit rest h0 c.waitForResponse
    | dataObserved d =>
      have h0 : countTransmit rest ≤ 1 := by
        simp [isTransmitLabel] at h
        omega
      simpa [scanOk] using ih h0
    | sendBufQuery =>
      have h0 : countTransmit rest ≤ 1 := by
        simp [isTransmitLabel] at h
        omega
      simpa [scanOk] using ih h0

private lemma countTransmit_runListener (st : EngineState α) (d : Option ℕ)
    (l : Listener α) :
    countTransmit (runListener st d l).2 ≤
      (if isBufferQueryListener l then 1 else 0) := by
  cases l with
  | sendCallback cb => simp [runListener, countTransmit, isBufferQueryListener]
  | requeue => simp [runListener, countTransmit, isBufferQueryListener]
  | bufferQuery =>
    cases hq : st.queue with
    | nil => simp [runListener, hq, countTransmit, isBufferQueryListener]
    | cons c rest =>
      cases d with
      | none => simp [runListener, hq, countTransmit, isBufferQueryListener]
      | some n =>
        by_cases hfit : c.instruction.length ≤ n
        · by_cases hwfr : c.waitForResponse = true
          · simp [runListener, hq, hfit, hwfr, countTransmit,
              isBufferQueryListener, isTransmitLabel]
          · by_cases hrest : rest.isEmpty <;>
              simp [runListener, hq, hfit, hwfr, hrest, countTransmit,
                isBufferQueryListener, isTransmitLabel]
        · simp [runListener, hq, hfit, countTransmit, isBufferQueryListener]

private lemma countTransmit_runListeners (d : Option ℕ) :
    ∀ (ls : List (Listener α)) (st : EngineState α),
      countTransmit (runListeners st d ls).2 ≤ bqCount ls := by
  intro ls
  induction ls with
  | nil => intro st; simp [runListeners, countTransmit, bqCount]
  | cons l rest ih =>
    intro st
    by_cases hcr : st.crashed
    · simp [runListeners, hcr, countTransmit, bqCount]
    · simp only [runListeners, hcr, if_false, Bool.false_eq_true]
      have h1 := countTransmit_runListener st d l
      have h2 := ih (runListener st d l).1
      have hsum : countTransmit ((runListener st d l).2 ++
          (runListeners (runListener st d l).1 d rest).2) =
          countTransmit (runListener st d l).2 +
            countTransmit (runListeners (runListener st d l).1 d rest).2 := by
        simp [countTransmit, List.countP_append]
      have hsplit : bqCount (l :: rest) =
          bqCount rest + (if isBufferQueryListener l then 1 else 0) := by
        simp [bqCount, List.countP_cons]
      rw [hsum, hsplit]
      by_cases hbq : isBufferQueryListener l = true
      · simp only [hbq, if_true] at h1 ⊢
        omega
      · simp only [hbq, Bool.false_eq_true, if_false] at h1 ⊢
        omega

private lemma scanOk_runEvent (st : EngineState α) (e : Event α) (b : Bool)
    (hd : ∀ d, e = Event.data d → bqCount st.listeners ≤ 1) :
    scanOk b (runEvent st e).2 = true := by
  cases e with
  | timerFire =>
    by_cases hcr : st.crashed
    · simp [runEvent, hcr, scanOk]
    · by_cases ht : st.timerArmed
      · by_cases hq : st.queue.isEmpty <;>
          simp [runEvent, hcr, ht, processQueue, hq, scanOk]
      · simp [runEvent, hcr, ht, scanOk]
  | retryFire =>
    by_cases hcr : st.crashed
    · simp [runEvent, hcr, scanOk]
    · by_cases hr : st.retryArmed <;> simp [runEvent, hcr, hr, scanOk]
  | data d =>
    by_cases hcr : st.crashed = true
    · simp [runEvent, hcr, scanOk]
    · rw [Bool.not_eq_true] at hcr
      simp only [runEvent, hcr, if_false, Bool.false_eq_true, runData, scanOk]
      exact scanOk_of_le_one_transmit _
        (le_trans (countTransmit_runListeners d st.listeners _) (hd d rfl))
  | enqueue cmds =>
    by_cases hcr : st.crashed <;> simp [runEvent, hcr, scanOk]

private lemma scanOk_runEvents :
    ∀ (evs : List (Event α)) (st : EngineState α) (b : Bool),
      singleQueryPaced st evs = true →
      scanOk b (runEvents st evs).2 = true := by
  intro evs
  induction evs with
  | nil => intro st b _; rfl
  | cons e rest ih =>
    intro st b hpaced
    simp only [singleQueryPaced, Bool.and_eq_true] at hpaced
    obtain ⟨he, hrest⟩ := hpaced
    simp only [runEvents]
    rw [scanOk_append]
    rw [scanOk_runEvent st e b (fun d hd => by
      subst hd
      simpa using of_decide_eq_true he)]
    rw [ih _ _ hrest]
    rfl

/-- Claim C1 (amended): along every run in which each data response arrives
while at most one buffer-space query is outstanding (`singleQueryPaced` —
excluded are only runs like `staleQueryTrace`, where a lost `ESC.B` reply
leaves a stale buffer-query listener that a later response fires together
with a fresh one), the flow controller transmits at most one
response-awaiting command at a time: after `_processQueue` sends a command
whose `waitForResponse` flag is set, no further queued command is
transmitted until a data response has been observed. -/
theorem single_response_awaiting_in_flight {α : Type} (evs : List (Event α))
    (hpaced : singleQueryPaced initialEngine evs = true) :
    respectsSingleInFlight (runEvents initialEngine evs).2 = true :=
  scanOk_runEvents evs initialEngine false hpaced

/-- Witness for `single_response_awaiting_in_flight` on `goodTrace`. -/
theorem single_response_awaiting_in_flight_witness :
    singleQueryPaced initialEngine goodTrace = true ∧
    respectsSingleInFlight (runEvents initialEngine goodTrace).2 = true :=
  ⟨by decide, single_response_awaiting_in_flight goodTrace (by decide)⟩

end Hpgl
